import Mathlib

/-!
Shallow embedding of the SimpleTest test-runner core (src/main.py).

The embedding models the `TestExecutor` sequencer: `run_all_tests`,
`run_next_test`, `run_test`, `run_test_thread`, `update_test_result`,
`run_selected_test`, `run_selected_test_continue`, `set_stop_test_series`,
together with `TestListItem.set_status` and `load_test_series` /
`set_test_directory`.

Modelling choices:
* A test series descriptor entry is `TestEntry` (name, file) mirroring the
  `{name, file}` mappings of `test_series.yaml`; the runtime `test_items`
  list is derived from it (its per-item mutable `status` lives in
  `RunnerState.statuses`).
* The behaviour of a test module resolved from a given script file is an
  oracle `behavior : String → TestBehavior`: either the module import raises
  (caught inside `run_test`), or `maintest` raises on the worker thread
  (uncaught in `run_test_thread`), or `maintest` returns an outcome string.
* A stop request arriving while test `i` executes on the worker is the
  oracle `stopDuring : Nat → Bool`; it is OR-ed into `stop_test_series`
  before the completion callback `update_test_result` runs.
* The asynchronous thread-plus-`after` callback chain is flattened into a
  sequential recursion: `run_test` dispatch, then `update_test_result`,
  then possibly `run_next_test`, exactly in source order.  `RunResult.stuck`
  marks the situation where the worker thread died from an uncaught
  exception so the completion callback will never run.
* User-visible notices (modal failure dialog, "Test series stopped",
  "All tests completed", "Error running test") and each worker-thread
  launch are recorded as an `Event` trace.
-/

namespace SimpleTest

/-- One entry of `test_series.yaml`'s `tests` list (`{name, file}`). -/
structure TestEntry where
  name : String
  file : String
deriving Repr, DecidableEq

/-- What happens when the script file resolved for a test is loaded and run. -/
inductive TestBehavior where
  | importError
  | raises
  | returns (outcome : String)
deriving Repr, DecidableEq

/-- Mutable runner state of `TestExecutor` (the fields the sequencer touches).
`start_time` is `true` when `self.start_time` holds a timestamp. -/
structure RunnerState where
  current_test_index : Nat
  is_running_tests : Bool
  stop_test_series : Bool
  start_time : Bool
  statuses : List String
deriving Repr, DecidableEq

/-- User-visible events produced during a run.  `ran i f` records that a
worker thread was started for test index `i` with the module loaded from
script file `f`. -/
inductive Event where
  | ran (index : Nat) (file : String)
  | failNotice (index : Nat)
  | stopNotice
  | completedNotice
  | errorNotice
deriving Repr, DecidableEq

/-- The notice chosen by `update_test_result`; `none` means the sequencer
continues with `run_next_test`. -/
inductive Notice where
  | failN (index : Nat)
  | stopN
  | doneN
deriving Repr, DecidableEq

/-- Result of one `update_test_result` callback. -/
structure Step where
  state : RunnerState
  notice : Option Notice
deriving Repr, DecidableEq

/-- How a call chain ended: `done` means control returned to the event loop
with no further callback pending; `stuck` means the worker thread died with
an uncaught exception, so the completion callback will never fire;
`fuelOut` is the fuel-exhaustion marker (unreachable for sufficient fuel). -/
inductive RunResult where
  | done (s : RunnerState)
  | stuck (s : RunnerState)
  | fuelOut (s : RunnerState)
deriving Repr, DecidableEq

/-- `TestListItem.set_status` icon table (src/main.py line 72). -/
def statusIcons : List (String × String) :=
  [("pass", "✓"), ("softfail", "⚠"), ("fail", "✗"), ("done", "•"), ("pending", "-")]

/-- The icon displayed for a status: `status_icons.get(status, "•")`. -/
def statusIcon (status : String) : String :=
  ((statusIcons.find? fun p => p.1 == status).map Prod.snd).getD "•"

/-- `run_test` lines 649-650: strip a trailing `.py` from the script file
(`if test_info['file'][-3:] == '.py': test_info['file'] = test_info['file'][:-3]`,
phrased over the character list so that it evaluates by kernel reduction). -/
def stripPy (file : String) : String :=
  if file.data.drop (file.data.length - 3) = ['.', 'p', 'y'] then
    String.mk (file.data.take (file.data.length - 3))
  else file

/-- `run_test` line 640: `next(test for test in self.test_series['tests'] if
test['name'] == test_name)` — the first series entry with the given name. -/
def resolveEntry (series : List TestEntry) (name : String) : Option TestEntry :=
  series.find? fun t => t.name == name

/-- The script file (after `.py` stripping) that `run_test` loads when
dispatching the test at `index`: the item's name is looked up by first
name match over the descriptor list. -/
def resolvedFileAt (series : List TestEntry) (index : Nat) : Option String :=
  (series.get? index).bind fun item =>
    (resolveEntry series item.name).map fun t => stripPy t.file

/-- `set_stop_test_series` (lines 454-461): sets the stop flag only while a
run is active. -/
def setStopTestSeries (s : RunnerState) : RunnerState :=
  if s.is_running_tests then { s with stop_test_series := true } else s

/-- `update_test_result` (lines 678-713).  `nItems = len(self.test_items)`.
Sets the item's status, then: `fail` halts with a modal notice (the stop
flag is left untouched); otherwise a pending stop request is consumed and
the run halts; otherwise the index advances and either the next test is due
(`notice = none`) or the series completes. -/
def updateTestResult (nItems : Nat) (result : String) (index : Nat) (s : RunnerState) : Step :=
  let s0 := { s with statuses := s.statuses.set index result }
  if result == "fail" then
    { state := { s0 with is_running_tests := false, start_time := false },
      notice := some (Notice.failN index) }
  else if s0.stop_test_series then
    { state :=
        { s0 with
          stop_test_series := false, is_running_tests := false, start_time := false },
      notice := some Notice.stopN }
  else
    let s1 := { s0 with current_test_index := s0.current_test_index + 1 }
    if s1.current_test_index < nItems then
      { state := s1, notice := none }
    else
      { state := { s1 with is_running_tests := false, start_time := false },
        notice := some Notice.doneN }

/-- `run_next_test` (lines 606-622) together with the `run_test` dispatch
(lines 624-664), the worker thread (`run_test_thread`, lines 666-676) and
the completion callback (`update_test_result`), flattened sequentially.
`fuel` bounds the recursion depth (`series.length + 1` always suffices). -/
def runNextTest (series : List TestEntry) (behavior : String → TestBehavior)
    (stopDuring : Nat → Bool) : Nat → RunnerState → RunResult × List Event
  | 0, s => (RunResult.fuelOut s, [])
  | fuel + 1, s =>
    match series.get? s.current_test_index with
    | none =>
      (RunResult.done { s with is_running_tests := false }, [Event.completedNotice])
    | some item =>
      match resolveEntry series item.name with
      | none =>
        (RunResult.done { s with is_running_tests := false }, [Event.errorNotice])
      | some tinfo =>
        match behavior (stripPy tinfo.file) with
        | TestBehavior.importError =>
          (RunResult.done { s with is_running_tests := false }, [Event.errorNotice])
        | TestBehavior.raises =>
          (RunResult.stuck
            { s with stop_test_series := s.stop_test_series || stopDuring s.current_test_index },
           [Event.ran s.current_test_index (stripPy tinfo.file)])
        | TestBehavior.returns outcome =>
          let s1 := { s with stop_test_series :=
                        s.stop_test_series || stopDuring s.current_test_index }
          let u := updateTestResult series.length outcome s.current_test_index s1
          match u.notice with
          | some (Notice.failN k) =>
            (RunResult.done u.state,
             [Event.ran s.current_test_index (stripPy tinfo.file), Event.failNotice k])
          | some Notice.stopN =>
            (RunResult.done u.state,
             [Event.ran s.current_test_index (stripPy tinfo.file), Event.stopNotice])
          | some Notice.doneN =>
            (RunResult.done u.state,
             [Event.ran s.current_test_index (stripPy tinfo.file), Event.completedNotice])
          | none =>
            let rest := runNextTest series behavior stopDuring fuel u.state
            (rest.1, Event.ran s.current_test_index (stripPy tinfo.file) :: rest.2)

/-- `run_all_tests` (lines 534-550): a no-op while already running;
otherwise clears the stop flag, marks running, sets the index and the
start time, and enters `run_next_test`. -/
def runAllTests (series : List TestEntry) (behavior : String → TestBehavior)
    (stopDuring : Nat → Bool) (starting_index : Nat) (s : RunnerState) :
    RunResult × List Event :=
  if s.is_running_tests then (RunResult.done s, [])
  else
    runNextTest series behavior stopDuring (series.length + 1)
      { s with stop_test_series := false, is_running_tests := true,
               current_test_index := starting_index, start_time := true }

/-- `run_selected_test` (lines 500-522): requires a selection and no active
run; sets the index, marks running, sets `stop_test_series = True` before
dispatching `run_test` on the selected index; exceptions raised by the
dispatch are caught and reset the runner to idle.  An out-of-range selected
index raises before the `try` block, leaving the runner marked running. -/
def runSelectedTest (series : List TestEntry) (behavior : String → TestBehavior)
    (stopDuring : Nat → Bool) (selected : Option Nat) (s : RunnerState) :
    RunResult × List Event :=
  match selected with
  | none => (RunResult.done s, [])
  | some i =>
    if s.is_running_tests then (RunResult.done s, [])
    else
      let sPre :=
        { s with
          current_test_index := i, is_running_tests := true, start_time := true }
      match series.get? i with
      | none => (RunResult.done sPre, [])
      | some item =>
        match resolveEntry series item.name with
        | none =>
          (RunResult.done
            { sPre with
              is_running_tests := false, stop_test_series := false,
              start_time := false }, [Event.errorNotice])
        | some tinfo =>
          match behavior (stripPy tinfo.file) with
          | TestBehavior.importError =>
            (RunResult.done
              { sPre with
                is_running_tests := false, stop_test_series := false,
                start_time := false }, [Event.errorNotice])
          | TestBehavior.raises =>
            (RunResult.stuck { sPre with stop_test_series := true },
             [Event.ran i (stripPy tinfo.file)])
          | TestBehavior.returns outcome =>
            let s1 := { sPre with stop_test_series := true || stopDuring i }
            let u := updateTestResult series.length outcome i s1
            match u.notice with
            | some (Notice.failN k) =>
              (RunResult.done u.state,
               [Event.ran i (stripPy tinfo.file), Event.failNotice k])
            | some Notice.stopN =>
              (RunResult.done u.state,
               [Event.ran i (stripPy tinfo.file), Event.stopNotice])
            | some Notice.doneN =>
              (RunResult.done u.state,
               [Event.ran i (stripPy tinfo.file), Event.completedNotice])
            | none =>
              let rest := runNextTest series behavior stopDuring (series.length + 1) u.state
              (rest.1, Event.ran i (stripPy tinfo.file) :: rest.2)

/-- `run_selected_test_continue` (lines 524-532): requires a selection and
no active run; clears the stop flag and delegates to
`run_all_tests(starting_index=selected)`. -/
def runSelectedTestContinue (series : List TestEntry) (behavior : String → TestBehavior)
    (stopDuring : Nat → Bool) (selected : Option Nat) (s : RunnerState) :
    RunResult × List Event :=
  match selected with
  | none => (RunResult.done s, [])
  | some i =>
    if s.is_running_tests then (RunResult.done s, [])
    else
      runAllTests series behavior stopDuring i { s with stop_test_series := false }

/-- The indices of the worker-thread launches recorded in a trace. -/
def ranIndices (tr : List Event) : List Nat :=
  tr.filterMap fun e =>
    match e with
    | Event.ran i _ => some i
    | _ => none

/-- A parsed `test_series.yaml` descriptor; `tests = none` models a mapping
that parses but lacks the top-level `tests` key. -/
structure Descriptor where
  tests : Option (List TestEntry)
deriving Repr, DecidableEq

/-- The series-related state of `TestExecutor`: the in-memory parsed
descriptor and the list of `TestItem` widgets (by test name). -/
structure SeriesState where
  test_series : Option Descriptor
  test_items : List String
deriving Repr, DecidableEq

/-- `load_test_series` (lines 463-483): stores the newly parsed descriptor,
destroys the existing `TestItem`s and resets `test_items` to `[]`, then
iterates `self.test_series['tests']` — which raises (`KeyError`) when the
`tests` key is missing, *after* the prior items were already destroyed.
The `error` value carries the state left behind at the raise point. -/
def loadTestSeries (d : Descriptor) (st : SeriesState) : Except SeriesState SeriesState :=
  let st1 := { st with test_series := some d }
  let st2 := { st1 with test_items := [] }
  match d.tests with
  | none => Except.error st2
  | some ts => Except.ok { st2 with test_items := ts.map (·.name) }

/-- The `initialize_test` path of `set_test_directory` (lines 375-385):
the exception from `load_test_series` is caught, an error is printed and
the user is prompted for another series (the returned `Bool` is `true`
when that error path was taken). -/
def setTestDirectory (d : Descriptor) (st : SeriesState) : SeriesState × Bool :=
  match loadTestSeries d st with
  | Except.ok st' => (st', false)
  | Except.error st' => (st', true)

/-- Test `index` of the series completes normally: its script file resolves,
the module imports, and `maintest` returns some outcome. -/
def completesAt (series : List TestEntry) (behavior : String → TestBehavior)
    (index : Nat) : Prop :=
  ∃ f o, resolvedFileAt series index = some f ∧ behavior f = TestBehavior.returns o

/-- Test `index` completes normally with a non-`fail` outcome and no stop
request arrives while it runs. -/
def passesAt (series : List TestEntry) (behavior : String → TestBehavior)
    (stopDuring : Nat → Bool) (index : Nat) : Prop :=
  ∃ f o, resolvedFileAt series index = some f ∧ behavior f = TestBehavior.returns o ∧
    o ≠ "fail" ∧ stopDuring index = false

/-- Test `index` interrupts the run: it reports `fail`, or a stop request
arrives while it executes. -/
def interruptsAt (series : List TestEntry) (behavior : String → TestBehavior)
    (stopDuring : Nat → Bool) (index : Nat) : Prop :=
  (∃ f, resolvedFileAt series index = some f ∧ behavior f = TestBehavior.returns "fail") ∨
    stopDuring index = true

/-! Concrete inputs used by witnesses and counterexamples. -/

def demoSeries : List TestEntry := [⟨"A", "a"⟩, ⟨"B", "b"⟩]

def demoBehaviorPass : String → TestBehavior := fun _ => TestBehavior.returns "pass"

def demoNoStop : Nat → Bool := fun _ => false

def demoIdle : RunnerState := ⟨0, false, false, false, ["pending", "pending"]⟩

def demoRunning : RunnerState := ⟨1, true, false, true, ["pass", "pending"]⟩

def demoRunningStop : RunnerState := ⟨0, true, true, true, ["pending", "pending"]⟩

def series3 : List TestEntry := [⟨"A", "a.py"⟩, ⟨"B", "b"⟩, ⟨"C", "c"⟩]

def beh3 : String → TestBehavior := fun f =>
  if f == "b" then TestBehavior.returns "fail" else TestBehavior.returns "pass"

def idle3 : RunnerState := ⟨0, false, false, false, ["pending", "pending", "pending"]⟩

def running3 : RunnerState := ⟨0, true, false, true, ["pending", "pending", "pending"]⟩

def crashSeries : List TestEntry := [⟨"T", "t"⟩]

def idle1 : RunnerState := ⟨0, false, false, false, ["pending"]⟩

def dupSeries : List TestEntry := [⟨"X", "a"⟩, ⟨"X", "b"⟩]

def dupIdle : RunnerState := ⟨0, false, false, false, ["pending", "pending"]⟩

def priorSeries : SeriesState := ⟨some ⟨some [⟨"old", "o"⟩]⟩, ["old"]⟩

def malformedDesc : Descriptor := ⟨none⟩

/-! Claim theorems. -/

/-- Claim C7: calling `run_all_tests()` while a run is already active
(`is_running_tests` true) is a no-op: the runner state (including
`current_test_index`, `is_running_tests`, `stop_test_series`, `start_time`)
is unchanged and no test execution is started (empty event trace). -/
theorem run_all_noop_when_running (series : List TestEntry)
    (behavior : String → TestBehavior) (stopDuring : Nat → Bool)
    (idx : Nat) (s : RunnerState) (h : s.is_running_tests = true) :
    runAllTests series behavior stopDuring idx s = (RunResult.done s, []) := by
  simp [runAllTests, h]

theorem run_all_noop_when_running_witness :
    runAllTests demoSeries demoBehaviorPass demoNoStop 0 demoRunning =
      (RunResult.done demoRunning, []) :=
  run_all_noop_when_running demoSeries demoBehaviorPass demoNoStop 0 demoRunning rfl

/-- Claim C8: for every selected index `i`, `run_selected_test_continue()`
invoked while not running produces exactly the same run behaviour, event
trace and resulting state as `run_all_tests(starting_index=i)`. -/
theorem run_selected_continue_eq_run_all (series : List TestEntry)
    (behavior : String → TestBehavior) (stopDuring : Nat → Bool)
    (i : Nat) (s : RunnerState) (h : s.is_running_tests = false) :
    runSelectedTestContinue series behavior stopDuring (some i) s =
      runAllTests series behavior stopDuring i s := by
  cases s
  simp_all [runSelectedTestContinue, runAllTests]

theorem run_selected_continue_eq_run_all_witness :
    runSelectedTestContinue demoSeries demoBehaviorPass demoNoStop (some 1) demoIdle =
      runAllTests demoSeries demoBehaviorPass demoNoStop 1 demoIdle :=
  run_selected_continue_eq_run_all demoSeries demoBehaviorPass demoNoStop 1 demoIdle rfl

/-- Claim C3 (code bug): `run_test_thread` has no exception handling, so a
test whose `maintest` raises kills the worker thread silently: the
completion callback never fires, no failure or error notice is ever shown,
and the runner stays stuck with `is_running_tests = true`.  Evaluated at
the failing input: a one-test series whose module's `maintest` raises. -/
theorem worker_exception_leaves_runner_stuck :
    runAllTests crashSeries (fun _ => TestBehavior.raises) demoNoStop 0 idle1 =
      (RunResult.stuck ⟨0, true, false, true, ["pending"]⟩, [Event.ran 0 "t"]) ∧
    (RunnerState.is_running_tests ⟨0, true, false, true, ["pending"]⟩) = true ∧
    (∀ i, Event.failNotice i ∉
      (runAllTests crashSeries (fun _ => TestBehavior.raises) demoNoStop 0 idle1).2) ∧
    Event.errorNotice ∉
      (runAllTests crashSeries (fun _ => TestBehavior.raises) demoNoStop 0 idle1).2 := by
  refine ⟨by decide, rfl, ?_, by decide⟩
  intro i
  have : (runAllTests crashSeries (fun _ => TestBehavior.raises) demoNoStop 0 idle1).2
      = [Event.ran 0 "t"] := by decide
  simp [this]

/-- Claim C4 counterexample: opening a descriptor that parses but lacks the
`tests` key does fail and is reported, and creates no new `TestItem`s, but
the prior series does NOT remain active and unchanged: its `TestItem`s are
destroyed (the list is reset to `[]`) and the in-memory test series is
overwritten by the malformed mapping before the `KeyError` is raised. -/
theorem malformed_series_destroys_prior_items :
    (setTestDirectory malformedDesc priorSeries).2 = true ∧
    (setTestDirectory malformedDesc priorSeries).1.test_items = [] ∧
    (setTestDirectory malformedDesc priorSeries).1.test_items ≠ priorSeries.test_items ∧
    (setTestDirectory malformedDesc priorSeries).1.test_series ≠ priorSeries.test_series := by
  decide

/-- Claim C4 as amended: for every descriptor that parses but lacks the
top-level `tests` key, opening it fails as a malformed series (the error is
caught, reported, and the user is prompted for another series) and no new
`TestItem`s are created; however the prior series' `TestItem`s are
destroyed and the loaded test series is overwritten by the malformed
mapping before the failure is detected. -/
theorem malformed_series_amended (d : Descriptor) (st : SeriesState)
    (h : d.tests = none) :
    setTestDirectory d st = (⟨some d, []⟩, true) := by
  simp [setTestDirectory, loadTestSeries, h]

theorem malformed_series_amended_witness :
    setTestDirectory malformedDesc priorSeries = (⟨some malformedDesc, []⟩, true) :=
  malformed_series_amended malformedDesc priorSeries rfl

/-- Claim C6 counterexample: with a stop request pending
(`stop_test_series = true` after `set_stop_test_series`), a completing test
that reports `"fail"` does NOT consume the stop flag at the
result-reporting boundary — `update_test_result`'s `fail` branch leaves
`stop_test_series = true` — contradicting "consumed exactly once ... for
every outcome of the completing test". -/
theorem stop_flag_not_consumed_on_fail :
    (setStopTestSeries demoRunning).stop_test_series = true ∧
    (updateTestResult 2 "fail" 1 (setStopTestSeries demoRunning)).state.stop_test_series = true ∧
    (updateTestResult 2 "fail" 1 (setStopTestSeries demoRunning)).state.is_running_tests = false := by
  decide

/-- Claim C6 as amended: calling `set_stop_test_series` any number of times
while a run is active has the same effect as calling it once (the flag is
simply set), and the flag is consumed (reset to `false`) exactly once at
the next result-reporting boundary for every outcome other than `"fail"`;
when the completing test reports `"fail"` the run halts but the flag is
left set (it is only cleared again when a new run starts). -/
theorem stop_request_idempotent_consumed_unless_fail :
    (∀ s : RunnerState, setStopTestSeries (setStopTestSeries s) = setStopTestSeries s) ∧
    (∀ s : RunnerState, s.is_running_tests = true →
      (setStopTestSeries s).stop_test_series = true) ∧
    (∀ (n i : Nat) (s : RunnerState) (o : String), o ≠ "fail" →
      s.stop_test_series = true →
      (updateTestResult n o i s).state.stop_test_series = false) ∧
    (∀ (n i : Nat) (s : RunnerState), s.stop_test_series = true →
      (updateTestResult n "fail" i s).state.stop_test_series = true) := by
  refine ⟨?_, ?_, ?_, ?_⟩
  · intro s
    by_cases h : s.is_running_tests = true <;> simp [setStopTestSeries, h]
  · intro s h
    simp [setStopTestSeries, h]
  · intro n i s o ho hs
    have ho' : (o == "fail") = false := by
      simp [ho]
    simp [updateTestResult, ho', hs]
  · intro n i s hs
    simp [updateTestResult, hs]

theorem stop_request_idempotent_consumed_unless_fail_witness :
    (setStopTestSeries (setStopTestSeries demoRunning) = setStopTestSeries demoRunning) ∧
    ((updateTestResult 2 "pass" 0 demoRunningStop).state.stop_test_series = false) ∧
    ((updateTestResult 2 "fail" 0 demoRunningStop).state.stop_test_series = true) :=
  ⟨stop_request_idempotent_consumed_unless_fail.1 demoRunning,
   stop_request_idempotent_consumed_unless_fail.2.2.1 2 0 demoRunningStop "pass"
     (by decide) (by decide),
   stop_request_idempotent_consumed_unless_fail.2.2.2 2 0 demoRunningStop (by decide)⟩

/-- Claim C9 counterexample: the outcome value `"pending"` lies outside the
closed set `{"pass","softfail","fail","done"}`, yet its recorded per-item
status display is the `"-"` icon, not the `"done"` indicator `"•"` —
`status_icons` contains a `"pending"` entry, so the display does not fall
back to `"•"` for every out-of-set value. -/
theorem pending_outcome_icon_counterexample :
    ("pending" ≠ "pass" ∧ "pending" ≠ "softfail" ∧ "pending" ≠ "fail" ∧
      "pending" ≠ "done") ∧
    statusIcon "pending" = "-" ∧ statusIcon "pending" ≠ statusIcon "done" := by
  decide

/-- Claim C9 as amended: for every outcome value outside the set
`{"pass","softfail","fail","done","pending"}`, the result reporter treats
it as `"done"`: it does not error, it does not halt the series (the
decision and the sequencer-visible state are exactly those of `"pass"`),
the raw value is recorded as the item's status, and the displayed icon
falls back to the `"done"` indicator `"•"`.  (For the out-of-set value
`"pending"` everything holds except the icon, which is `"-"`.) -/
theorem unknown_outcome_treated_as_done (n i : Nat) (s : RunnerState) (o : String)
    (h1 : o ≠ "pass") (h2 : o ≠ "softfail") (h3 : o ≠ "fail") (h4 : o ≠ "done") :
    (updateTestResult n o i s).notice = (updateTestResult n "pass" i s).notice ∧
    (updateTestResult n o i s).state.current_test_index =
      (updateTestResult n "pass" i s).state.current_test_index ∧
    (updateTestResult n o i s).state.is_running_tests =
      (updateTestResult n "pass" i s).state.is_running_tests ∧
    (updateTestResult n o i s).state.stop_test_series =
      (updateTestResult n "pass" i s).state.stop_test_series ∧
    (updateTestResult n o i s).state.statuses = s.statuses.set i o ∧
    (o ≠ "pending" → statusIcon o = "•") := by
  have ho' : (o == "fail") = false := by simp [h3]
  refine ⟨?_, ?_, ?_, ?_, ?_, ?_⟩
  · cases hstop : s.stop_test_series <;>
      by_cases hn : s.current_test_index + 1 < n <;>
        simp [updateTestResult, ho', hstop, hn]
  · cases hstop : s.stop_test_series <;>
      by_cases hn : s.current_test_index + 1 < n <;>
        simp [updateTestResult, ho', hstop, hn]
  · cases hstop : s.stop_test_series <;>
      by_cases hn : s.current_test_index + 1 < n <;>
        simp [updateTestResult, ho', hstop, hn]
  · cases hstop : s.stop_test_series <;>
      by_cases hn : s.current_test_index + 1 < n <;>
        simp [updateTestResult, ho', hstop, hn]
  · cases hstop : s.stop_test_series <;>
      by_cases hn : s.current_test_index + 1 < n <;>
        simp [updateTestResult, ho', hstop, hn]
  · intro h5
    have e1 : ("pass" == o) = false := by simp; exact fun e => h1 e.symm
    have e2 : ("softfail" == o) = false := by simp; exact fun e => h2 e.symm
    have e3 : ("fail" == o) = false := by simp; exact fun e => h3 e.symm
    have e4 : ("done" == o) = false := by simp; exact fun e => h4 e.symm
    have e5 : ("pending" == o) = false := by simp; exact fun e => h5 e.symm
    simp [statusIcon, statusIcons, List.find?, e1, e2, e3, e4, e5]

theorem unknown_outcome_treated_as_done_witness :
    ((updateTestResult 3 "frobnicate" 0 running3).notice =
      (updateTestResult 3 "pass" 0 running3).notice) ∧
    ((updateTestResult 3 "frobnicate" 0 running3).state.statuses =
      running3.statuses.set 0 "frobnicate") ∧
    statusIcon "frobnicate" = "•" := by
  have h := unknown_outcome_treated_as_done 3 0 running3 "frobnicate"
    (by decide) (by decide) (by decide) (by decide)
  exact ⟨h.1, h.2.2.2.2.1, h.2.2.2.2.2 (by decide)⟩

/-- A `run_selected_test` dispatch of an in-range test whose module imports
and whose `maintest` returns an outcome: exactly one worker launch happens,
at the selected index with the resolved file, and the runner returns to
idle regardless of the outcome (the pre-set stop flag or the `fail` branch
halts it). -/
lemma runSelectedTest_single (series : List TestEntry)
    (behavior : String → TestBehavior) (stopDuring : Nat → Bool)
    (s : RunnerState) (i : Nat) (f o : String)
    (hidle : s.is_running_tests = false)
    (hres : resolvedFileAt series i = some f)
    (hbeh : behavior f = TestBehavior.returns o) :
    ∃ s' tr, runSelectedTest series behavior stopDuring (some i) s = (RunResult.done s', tr) ∧
      s'.is_running_tests = false ∧ ranIndices tr = [i] ∧ Event.ran i f ∈ tr := by
  unfold resolvedFileAt at hres
  rcases hget : series.get? i with _ | item
  · rw [hget] at hres
    simp at hres
  · rw [hget] at hres
    simp only [Option.some_bind] at hres
    obtain ⟨t, ht, hf⟩ := Option.map_eq_some'.mp hres
    have hget' : series[i]? = some item := by
      rw [← List.get?_eq_getElem?]
      exact hget
    by_cases ho : o = "fail"
    · subst ho
      have hn : (updateTestResult series.length "fail" i
          { s with
            current_test_index := i, is_running_tests := true, start_time := true,
            stop_test_series := true }).notice = some (Notice.failN i) := by
        simp [updateTestResult]
      have heq : runSelectedTest series behavior stopDuring (some i) s =
          (RunResult.done (updateTestResult series.length "fail" i
            { s with
              current_test_index := i, is_running_tests := true, start_time := true,
              stop_test_series := true }).state,
           [Event.ran i f, Event.failNotice i]) := by
        simp [runSelectedTest, hidle, hget', ht, hf, hbeh, hn]
      exact ⟨_, _, heq, by simp [updateTestResult], by simp [ranIndices], by simp⟩
    · have ho' : (o == "fail") = false := by simp [ho]
      have hn : (updateTestResult series.length o i
          { s with
            current_test_index := i, is_running_tests := true, start_time := true,
            stop_test_series := true }).notice = some Notice.stopN := by
        simp [updateTestResult, ho']
      have heq : runSelectedTest series behavior stopDuring (some i) s =
          (RunResult.done (updateTestResult series.length o i
            { s with
              current_test_index := i, is_running_tests := true, start_time := true,
              stop_test_series := true }).state,
           [Event.ran i f, Event.stopNotice]) := by
        simp [runSelectedTest, hidle, hget', ht, hf, hbeh, hn]
      exact ⟨_, _, heq, by simp [updateTestResult, ho'], by simp [ranIndices], by simp⟩

/-- Claim C5: for every selected index `i`, `run_selected_test()` invoked
while not running executes only the test at index `i` and then halts
(returns to idle) regardless of that test's outcome: no test at index
`i + 1` or later is executed in that run. -/
theorem run_selected_test_halts_after_single (series : List TestEntry)
    (behavior : String → TestBehavior) (stopDuring : Nat → Bool)
    (s : RunnerState) (i : Nat)
    (hidle : s.is_running_tests = false)
    (hcomp : completesAt series behavior i) :
    ∃ s' tr, runSelectedTest series behavior stopDuring (some i) s = (RunResult.done s', tr) ∧
      s'.is_running_tests = false ∧ ranIndices tr = [i] := by
  obtain ⟨f, o, hres, hbeh⟩ := hcomp
  obtain ⟨s', tr, h1, h2, h3, _⟩ :=
    runSelectedTest_single series behavior stopDuring s i f o hidle hres hbeh
  exact ⟨s', tr, h1, h2, h3⟩

theorem run_selected_test_halts_after_single_witness :
    ∃ s' tr, runSelectedTest series3 beh3 demoNoStop (some 1) idle3 = (RunResult.done s', tr) ∧
      s'.is_running_tests = false ∧ ranIndices tr = [1] :=
  run_selected_test_halts_after_single series3 beh3 demoNoStop idle3 1 rfl
    ⟨"b", "fail", by decide, by decide⟩

/-- `next(test for test in tests if test['name'] == name)` returns the entry
at index `i` when no earlier entry carries its name. -/
lemma find_first_matching_name : ∀ (l : List TestEntry) (i : Nat) (e : TestEntry),
    l.get? i = some e →
    (∀ k ek, k < i → l.get? k = some ek → ek.name ≠ e.name) →
    l.find? (fun t => t.name == e.name) = some e := by
  intro l
  induction l with
  | nil =>
    intro i e h _
    simp at h
  | cons a tl ih =>
    intro i e h hfirst
    cases i with
    | zero =>
      simp at h
      subst h
      simp [List.find?_cons]
    | succ k =>
      have ha : a.name ≠ e.name := hfirst 0 a (Nat.succ_pos k) (by simp)
      have ha' : (a.name == e.name) = false := by simp [ha]
      rw [List.find?_cons, ha']
      exact ih k e (by simpa using h)
        (fun k' ek hk' hg => hfirst (k' + 1) ek (Nat.succ_lt_succ hk') (by simpa using hg))

/-- Claim C10: for a series containing two entries with the same name but
different script files, running the test at the index of the later
duplicate resolves — and executes — the script file of the first entry
bearing that name, not the file of the entry at the requested index:
`run_test` resolves the script by first name match over the descriptor
list, not by index. -/
theorem duplicate_name_runs_first_entry_file (series : List TestEntry)
    (behavior : String → TestBehavior) (stopDuring : Nat → Bool) (s : RunnerState)
    (i j : Nat) (ei ej : TestEntry) (o : String)
    (hij : i < j)
    (hi : series.get? i = some ei) (hj : series.get? j = some ej)
    (hname : ei.name = ej.name)
    (hfirst : ∀ k ek, k < i → series.get? k = some ek → ek.name ≠ ei.name)
    (hidle : s.is_running_tests = false)
    (hbeh : behavior (stripPy ei.file) = TestBehavior.returns o) :
    resolvedFileAt series j = some (stripPy ei.file) ∧
    (stripPy ei.file ≠ stripPy ej.file →
      resolvedFileAt series j ≠ some (stripPy ej.file)) ∧
    ∃ s' tr, runSelectedTest series behavior stopDuring (some j) s = (RunResult.done s', tr) ∧
      Event.ran j (stripPy ei.file) ∈ tr := by
  have hfind : series.find? (fun t => t.name == ei.name) = some ei :=
    find_first_matching_name series i ei hi hfirst
  have hres : resolvedFileAt series j = some (stripPy ei.file) := by
    rw [resolvedFileAt, hj]
    simp only [Option.some_bind]
    rw [resolveEntry, ← hname, hfind]
    rfl
  refine ⟨hres, ?_, ?_⟩
  · intro hne heq
    rw [hres] at heq
    simp at heq
    exact hne heq
  · obtain ⟨s', tr, h1, _, _, h4⟩ :=
      runSelectedTest_single series behavior stopDuring s j (stripPy ei.file) o hidle hres hbeh
    exact ⟨s', tr, h1, h4⟩

theorem duplicate_name_runs_first_entry_file_witness :
    resolvedFileAt dupSeries 1 = some (stripPy "a") ∧
    (stripPy "a" ≠ stripPy "b" → resolvedFileAt dupSeries 1 ≠ some (stripPy "b")) ∧
    ∃ s' tr, runSelectedTest dupSeries demoBehaviorPass demoNoStop (some 1) dupIdle =
        (RunResult.done s', tr) ∧
      Event.ran 1 (stripPy "a") ∈ tr :=
  duplicate_name_runs_first_entry_file dupSeries demoBehaviorPass demoNoStop dupIdle
    0 1 ⟨"X", "a"⟩ ⟨"X", "b"⟩ "pass" (by decide) rfl rfl rfl
    (fun k _ hk _ => absurd hk (Nat.not_lt_zero k)) rfl rfl

/-- Decompose a successful file resolution into its parts. -/
lemma resolvedFileAt_some_elim {series : List TestEntry} {i : Nat} {f : String}
    (h : resolvedFileAt series i = some f) :
    ∃ item t, series.get? i = some item ∧ resolveEntry series item.name = some t ∧
      stripPy t.file = f := by
  unfold resolvedFileAt at h
  rcases hg : series.get? i with _ | item
  · rw [hg] at h
    simp at h
  · rw [hg] at h
    simp only [Option.some_bind] at h
    obtain ⟨t, ht, hf⟩ := Option.map_eq_some'.mp h
    exact ⟨item, t, rfl, ht, hf⟩

/-- A successfully resolved index is in range. -/
lemma resolvedFileAt_some_lt {series : List TestEntry} {i : Nat} {f : String}
    (h : resolvedFileAt series i = some f) : i < series.length := by
  obtain ⟨item, t, hg, _, _⟩ := resolvedFileAt_some_elim h
  exact (List.get?_eq_some.mp hg).1

/-- Symbolic execution of one `run_next_test` step: exactly one of the seven
source paths applies — series exhausted, dispatch error, worker death,
`fail` halt, stop-request halt, series completion, or advance to the next
test. -/
lemma runNextTest_succ_eq (series : List TestEntry) (behavior : String → TestBehavior)
    (stopDuring : Nat → Bool) (fuel : Nat) (s : RunnerState) :
    (series.get? s.current_test_index = none ∧
      runNextTest series behavior stopDuring (fuel + 1) s =
        (RunResult.done { s with is_running_tests := false }, [Event.completedNotice])) ∨
    ((resolvedFileAt series s.current_test_index = none ∨
        ∃ file, resolvedFileAt series s.current_test_index = some file ∧
          behavior file = TestBehavior.importError) ∧
      runNextTest series behavior stopDuring (fuel + 1) s =
        (RunResult.done { s with is_running_tests := false }, [Event.errorNotice])) ∨
    (∃ file, resolvedFileAt series s.current_test_index = some file ∧
      behavior file = TestBehavior.raises ∧
      runNextTest series behavior stopDuring (fuel + 1) s =
        (RunResult.stuck
          { s with stop_test_series :=
              s.stop_test_series || stopDuring s.current_test_index },
         [Event.ran s.current_test_index file])) ∨
    (∃ file, resolvedFileAt series s.current_test_index = some file ∧
      behavior file = TestBehavior.returns "fail" ∧
      runNextTest series behavior stopDuring (fuel + 1) s =
        (RunResult.done (updateTestResult series.length "fail" s.current_test_index
          { s with stop_test_series :=
              s.stop_test_series || stopDuring s.current_test_index }).state,
         [Event.ran s.current_test_index file,
          Event.failNotice s.current_test_index])) ∨
    (∃ file o, resolvedFileAt series s.current_test_index = some file ∧
      behavior file = TestBehavior.returns o ∧ o ≠ "fail" ∧
      (s.stop_test_series || stopDuring s.current_test_index) = true ∧
      runNextTest series behavior stopDuring (fuel + 1) s =
        (RunResult.done (updateTestResult series.length o s.current_test_index
          { s with stop_test_series :=
              s.stop_test_series || stopDuring s.current_test_index }).state,
         [Event.ran s.current_test_index file, Event.stopNotice])) ∨
    (∃ file o, resolvedFileAt series s.current_test_index = some file ∧
      behavior file = TestBehavior.returns o ∧ o ≠ "fail" ∧
      (s.stop_test_series || stopDuring s.current_test_index) = false ∧
      ¬(s.current_test_index + 1 < series.length) ∧
      runNextTest series behavior stopDuring (fuel + 1) s =
        (RunResult.done (updateTestResult series.length o s.current_test_index
          { s with stop_test_series :=
              s.stop_test_series || stopDuring s.current_test_index }).state,
         [Event.ran s.current_test_index file, Event.completedNotice])) ∨
    (∃ file o, resolvedFileAt series s.current_test_index = some file ∧
      behavior file = TestBehavior.returns o ∧ o ≠ "fail" ∧
      (s.stop_test_series || stopDuring s.current_test_index) = false ∧
      s.current_test_index + 1 < series.length ∧
      runNextTest series behavior stopDuring (fuel + 1) s =
        ((runNextTest series behavior stopDuring fuel
            (updateTestResult series.length o s.current_test_index
              { s with stop_test_series :=
                  s.stop_test_series || stopDuring s.current_test_index }).state).1,
         Event.ran s.current_test_index file ::
           (runNextTest series behavior stopDuring fuel
             (updateTestResult series.length o s.current_test_index
               { s with stop_test_series :=
                   s.stop_test_series || stopDuring s.current_test_index }).state).2)) := by
  rcases hget : series.get? s.current_test_index with _ | item
  · left
    have hget' : series[s.current_test_index]? = none := by
      rw [← List.get?_eq_getElem?]
      exact hget
    exact ⟨rfl, by simp [runNextTest, hget']⟩
  · have hget' : series[s.current_test_index]? = some item := by
      rw [← List.get?_eq_getElem?]
      exact hget
    rcases ht : resolveEntry series item.name with _ | t
    · right; left
      constructor
      · left
        rw [resolvedFileAt, hget]
        simp [ht]
      · simp [runNextTest, hget', ht]
    · have hres : resolvedFileAt series s.current_test_index = some (stripPy t.file) := by
        rw [resolvedFileAt, hget]
        simp [ht]
      rcases hb : behavior (stripPy t.file) with _ | _ | o
      · right; left
        exact ⟨Or.inr ⟨stripPy t.file, hres, hb⟩, by simp [runNextTest, hget', ht, hb]⟩
      · right; right; left
        exact ⟨stripPy t.file, hres, hb, by simp [runNextTest, hget', ht, hb]⟩
      · by_cases ho : o = "fail"
        · subst ho
          right; right; right; left
          refine ⟨stripPy t.file, hres, hb, ?_⟩
          have hn : (updateTestResult series.length "fail" s.current_test_index
              { s with stop_test_series :=
                  s.stop_test_series || stopDuring s.current_test_index }).notice =
              some (Notice.failN s.current_test_index) := by
            simp [updateTestResult]
          simp [runNextTest, hget', ht, hb, hn]
        · have ho' : (o == "fail") = false := by simp [ho]
          cases hor : s.stop_test_series || stopDuring s.current_test_index
          · by_cases hlen : s.current_test_index + 1 < series.length
            · right; right; right; right; right; right
              refine ⟨stripPy t.file, o, hres, hb, ho, rfl, hlen, ?_⟩
              have hn : (updateTestResult series.length o s.current_test_index
                  { s with stop_test_series := false }).notice = none := by
                simp [updateTestResult, ho', hlen]
              simp [runNextTest, hget', ht, hb, hn, hor]
            · right; right; right; right; right; left
              refine ⟨stripPy t.file, o, hres, hb, ho, rfl, hlen, ?_⟩
              have hn : (updateTestResult series.length o s.current_test_index
                  { s with stop_test_series := false }).notice =
                  some Notice.doneN := by
                simp [updateTestResult, ho', hlen]
              simp [runNextTest, hget', ht, hb, hn, hor]
          · right; right; right; right; left
            refine ⟨stripPy t.file, o, hres, hb, ho, rfl, ?_⟩
            have hn : (updateTestResult series.length o s.current_test_index
                { s with stop_test_series := true }).notice =
                some Notice.stopN := by
              simp [updateTestResult, ho']
            simp [runNextTest, hget', ht, hb, hn, hor]

/-- Worker launches recorded by a run never concern an index below the
starting index. -/
lemma runNextTest_ran_ge (series : List TestEntry) (behavior : String → TestBehavior)
    (stopDuring : Nat → Bool) :
    ∀ (fuel : Nat) (s : RunnerState) (j : Nat) (f : String),
      Event.ran j f ∈ (runNextTest series behavior stopDuring fuel s).2 →
      s.current_test_index ≤ j := by
  intro fuel
  induction fuel with
  | zero =>
    intro s j f h
    simp [runNextTest] at h
  | succ fuel ih =>
    intro s j f h
    rcases runNextTest_succ_eq series behavior stopDuring fuel s with
      ⟨_, heq⟩ | ⟨_, heq⟩ | ⟨file, _, _, heq⟩ | ⟨file, _, _, heq⟩ |
      ⟨file, o, _, _, ho, hor, heq⟩ | ⟨file, o, _, _, ho, hor, hlen, heq⟩ |
      ⟨file, o, _, _, ho, hor, hlen, heq⟩
    · rw [heq] at h
      simp at h
    · rw [heq] at h
      simp at h
    · rw [heq] at h
      simp at h
      exact le_of_eq h.1.symm
    · rw [heq] at h
      simp at h
      exact le_of_eq h.1.symm
    · rw [heq] at h
      simp at h
      exact le_of_eq h.1.symm
    · rw [heq] at h
      simp at h
      exact le_of_eq h.1.symm
    · rw [heq] at h
      simp at h
      rcases h with ⟨hj, _⟩ | h2
      · exact le_of_eq hj.symm
      · have h3 := ih _ j f h2
        have ho' : (o == "fail") = false := by simp [ho]
        have h4 : (updateTestResult series.length o s.current_test_index
            { s with stop_test_series :=
                s.stop_test_series || stopDuring s.current_test_index }).state.current_test_index =
            s.current_test_index + 1 := by
          simp [updateTestResult, ho', hor, hlen]
        omega

/-- Once a test completes with outcome `"fail"`, the run ends in the idle
state, a modal failure notice for that index is raised, and no later index
is ever dispatched. -/
lemma runNextTest_fail_halts_aux (series : List TestEntry)
    (behavior : String → TestBehavior) (stopDuring : Nat → Bool) :
    ∀ (fuel : Nat) (s : RunnerState) (i : Nat) (f : String),
      Event.ran i f ∈ (runNextTest series behavior stopDuring fuel s).2 →
      behavior f = TestBehavior.returns "fail" →
      (∃ s', (runNextTest series behavior stopDuring fuel s).1 = RunResult.done s' ∧
        s'.is_running_tests = false) ∧
      Event.failNotice i ∈ (runNextTest series behavior stopDuring fuel s).2 ∧
      (∀ j f2, Event.ran j f2 ∈ (runNextTest series behavior stopDuring fuel s).2 →
        j ≤ i) := by
  intro fuel
  induction fuel with
  | zero =>
    intro s i f h _
    simp [runNextTest] at h
  | succ fuel ih =>
    intro s i f h hfail
    rcases runNextTest_succ_eq series behavior stopDuring fuel s with
      ⟨_, heq⟩ | ⟨_, heq⟩ | ⟨file, hres, hb, heq⟩ | ⟨file, hres, hb, heq⟩ |
      ⟨file, o, hres, hb, ho, hor, heq⟩ | ⟨file, o, hres, hb, ho, hor, hlen, heq⟩ |
      ⟨file, o, hres, hb, ho, hor, hlen, heq⟩
    · rw [heq] at h
      simp at h
    · rw [heq] at h
      simp at h
    · rw [heq] at h
      simp at h
      rw [h.2] at hfail
      rw [hb] at hfail
      simp at hfail
    · rw [heq] at h ⊢
      simp at h
      obtain ⟨hi, _⟩ := h
      refine ⟨⟨_, rfl, by simp [updateTestResult]⟩, by simp [hi], ?_⟩
      intro j f2 hj
      simp at hj
      obtain ⟨hj1, _⟩ := hj
      omega
    · rw [heq] at h
      simp at h
      rw [h.2] at hfail
      rw [hb] at hfail
      simp at hfail
      exact absurd hfail ho
    · rw [heq] at h
      simp at h
      rw [h.2] at hfail
      rw [hb] at hfail
      simp at hfail
      exact absurd hfail ho
    · rw [heq] at h ⊢
      simp at h
      rcases h with ⟨hi, hf⟩ | h2
      · rw [hf] at hfail
        rw [hb] at hfail
        simp at hfail
        exact absurd hfail ho
      · obtain ⟨⟨s', h1, hrun⟩, hmem, hbound⟩ := ih _ i f h2 hfail
        refine ⟨⟨s', by simpa using h1, hrun⟩, ?_, ?_⟩
        · simp
          exact hmem
        · intro j f2 hj
          simp at hj
          rcases hj with ⟨hj1, _⟩ | hj2
          · have ho' : (o == "fail") = false := by simp [ho]
            have hcur : (updateTestResult series.length o s.current_test_index
                { s with stop_test_series :=
                    s.stop_test_series || stopDuring s.current_test_index }).state.current_test_index =
                s.current_test_index + 1 := by
              simp [updateTestResult, ho', hor, hlen]
            have hge := runNextTest_ran_ge series behavior stopDuring fuel _ i f h2
            omega
          · exact hbound j f2 hj2

/-- A run in which every remaining test completes with a non-`fail` outcome
and no stop request arrives executes all remaining indices in ascending
order and ends idle. -/
lemma runNextTest_all_pass (series : List TestEntry) (behavior : String → TestBehavior)
    (stopDuring : Nat → Bool) :
    ∀ (fuel : Nat) (s : RunnerState),
      series.length - s.current_test_index < fuel →
      s.stop_test_series = false →
      (∀ k, s.current_test_index ≤ k → k < series.length →
        passesAt series behavior stopDuring k) →
      ∃ s' tr, runNextTest series behavior stopDuring fuel s = (RunResult.done s', tr) ∧
        s'.is_running_tests = false ∧
        ranIndices tr = List.range' s.current_test_index
          (series.length - s.current_test_index) := by
  intro fuel
  induction fuel with
  | zero =>
    intro s hf
    omega
  | succ fuel ih =>
    intro s hf hstop hpass
    by_cases hc : s.current_test_index < series.length
    · obtain ⟨f, o, hres, hbeh, hne, hsd⟩ := hpass s.current_test_index le_rfl hc
      have ho' : (o == "fail") = false := by simp [hne]
      have hor : (s.stop_test_series || stopDuring s.current_test_index) = false := by
        rw [hstop, hsd]
        rfl
      rcases runNextTest_succ_eq series behavior stopDuring fuel s with
        ⟨hnone, _⟩ | ⟨hcond, _⟩ | ⟨file, hres2, hb2, _⟩ | ⟨file, hres2, hb2, _⟩ |
        ⟨file, o2, hres2, hb2, ho2, hor2, _⟩ | ⟨file, o2, hres2, hb2, ho2, hor2, hlen2, heq⟩ |
        ⟨file, o2, hres2, hb2, ho2, hor2, hlen2, heq⟩
      · obtain ⟨item, t, hg, _, _⟩ := resolvedFileAt_some_elim hres
        rw [hnone] at hg
        simp at hg
      · rcases hcond with hcn | ⟨file, hcf, hcimp⟩
        · rw [hres] at hcn
          simp at hcn
        · rw [hres] at hcf
          simp at hcf
          rw [← hcf] at hcimp
          rw [hbeh] at hcimp
          simp at hcimp
      · rw [hres] at hres2
        simp at hres2
        rw [← hres2] at hb2
        rw [hbeh] at hb2
        simp at hb2
      · rw [hres] at hres2
        simp at hres2
        rw [← hres2] at hb2
        rw [hbeh] at hb2
        simp at hb2
        exact absurd hb2 hne
      · rw [hor] at hor2
        simp at hor2
      · rw [hres] at hres2
        simp at hres2
        subst hres2
        rw [hbeh] at hb2
        simp at hb2
        subst hb2
        refine ⟨_, _, heq, ?_, ?_⟩
        · simp [updateTestResult, ho', hor, hlen2]
        · have hlen1 : series.length - s.current_test_index = 1 := by omega
          rw [hlen1]
          simp [ranIndices]
      · rw [hres] at hres2
        simp at hres2
        subst hres2
        rw [hbeh] at hb2
        simp at hb2
        subst hb2
        have hcur : (updateTestResult series.length o s.current_test_index
            { s with stop_test_series :=
                s.stop_test_series || stopDuring s.current_test_index }).state =
            { s with
              current_test_index := s.current_test_index + 1,
              statuses := s.statuses.set s.current_test_index o } := by
          simp [updateTestResult, ho', hsd, hlen2, hstop]
        rw [hcur] at heq
        obtain ⟨s', tr, heqr, hrun, hran⟩ := ih
          { s with
            current_test_index := s.current_test_index + 1,
            statuses := s.statuses.set s.current_test_index o }
          (by show series.length - (s.current_test_index + 1) < fuel; omega)
          hstop
          (by
            intro k hk1 hk2
            have hk1' : s.current_test_index + 1 ≤ k := hk1
            exact hpass k (by omega) hk2)
        rw [heqr] at heq
        refine ⟨s', Event.ran s.current_test_index f :: tr, by simpa using heq, hrun, ?_⟩
        have hsplit : series.length - s.current_test_index =
            (series.length - (s.current_test_index + 1)) + 1 := by omega
        rw [hsplit]
        have hcons : ranIndices (Event.ran s.current_test_index f :: tr) =
            s.current_test_index :: ranIndices tr := by
          simp [ranIndices]
        have hran' : ranIndices tr =
            List.range' (s.current_test_index + 1)
              (series.length - (s.current_test_index + 1)) := hran
        rw [hcons, hran']
        rfl
    · rcases runNextTest_succ_eq series behavior stopDuring fuel s with
        ⟨hnone, heq⟩ | ⟨hcond, heq⟩ | ⟨file, hres2, _, _⟩ | ⟨file, hres2, _, _⟩ |
        ⟨file, o2, hres2, _, _, _, _⟩ | ⟨file, o2, hres2, _, _, _, _, _⟩ |
        ⟨file, o2, hres2, _, _, _, _, _⟩
      · refine ⟨_, _, heq, rfl, ?_⟩
        have hlen0 : series.length - s.current_test_index = 0 := by omega
        rw [hlen0]
        simp [ranIndices]
      · refine ⟨_, _, heq, rfl, ?_⟩
        have hlen0 : series.length - s.current_test_index = 0 := by omega
        rw [hlen0]
        simp [ranIndices]
      · exact absurd (resolvedFileAt_some_lt hres2) hc
      · exact absurd (resolvedFileAt_some_lt hres2) hc
      · exact absurd (resolvedFileAt_some_lt hres2) hc
      · exact absurd (resolvedFileAt_some_lt hres2) hc
      · exact absurd (resolvedFileAt_some_lt hres2) hc

/-- A run that reaches a first interrupting index `k` (a `fail` outcome or
a stop request during test `k`) executes exactly the indices from the start
through `k` and ends idle. -/
lemma runNextTest_first_interrupt (series : List TestEntry)
    (behavior : String → TestBehavior) (stopDuring : Nat → Bool) (k : Nat)
    (hkc : completesAt series behavior k)
    (hki : interruptsAt series behavior stopDuring k) :
    ∀ (fuel : Nat) (s : RunnerState),
      series.length - s.current_test_index < fuel →
      s.stop_test_series = false →
      s.current_test_index ≤ k →
      (∀ m, s.current_test_index ≤ m → m < k → passesAt series behavior stopDuring m) →
      ∃ s' tr, runNextTest series behavior stopDuring fuel s = (RunResult.done s', tr) ∧
        s'.is_running_tests = false ∧
        ranIndices tr = List.range' s.current_test_index
          (k + 1 - s.current_test_index) := by
  obtain ⟨fk, ok, hresk, hbk⟩ := hkc
  have hklt : k < series.length := resolvedFileAt_some_lt hresk
  intro fuel
  induction fuel with
  | zero =>
    intro s hf
    omega
  | succ fuel ih =>
    intro s hf hstop hck hpass
    by_cases hc : s.current_test_index = k
    · rw [← hc] at hresk hki
      rcases runNextTest_succ_eq series behavior stopDuring fuel s with
        ⟨hnone, _⟩ | ⟨hcond, _⟩ | ⟨file, hres2, hb2, _⟩ | ⟨file, hres2, hb2, heq⟩ |
        ⟨file, o2, hres2, hb2, ho2, hor2, heq⟩ | ⟨file, o2, hres2, hb2, ho2, hor2, hlen2, heq⟩ |
        ⟨file, o2, hres2, hb2, ho2, hor2, hlen2, heq⟩
      · obtain ⟨item, t, hg, _, _⟩ := resolvedFileAt_some_elim hresk
        rw [hnone] at hg
        simp at hg
      · rcases hcond with hcn | ⟨file, hcf, hcimp⟩
        · rw [hresk] at hcn
          simp at hcn
        · rw [hresk] at hcf
          simp at hcf
          rw [← hcf] at hcimp
          rw [hbk] at hcimp
          simp at hcimp
      · rw [hresk] at hres2
        simp at hres2
        rw [← hres2] at hb2
        rw [hbk] at hb2
        simp at hb2
      · refine ⟨_, _, heq, by simp [updateTestResult], ?_⟩
        have hlen1 : k + 1 - s.current_test_index = 1 := by omega
        rw [hlen1]
        simp [ranIndices]
      · have ho2' : (o2 == "fail") = false := by simp [ho2]
        refine ⟨_, _, heq, by simp [updateTestResult, ho2', hor2], ?_⟩
        have hlen1 : k + 1 - s.current_test_index = 1 := by omega
        rw [hlen1]
        simp [ranIndices]
      · exfalso
        rw [hresk] at hres2
        simp at hres2
        subst hres2
        rw [hbk] at hb2
        simp at hb2
        subst hb2
        rcases hki with ⟨f2, hrf2, hbf2⟩ | hsd
        · rw [hresk] at hrf2
          simp at hrf2
          rw [← hrf2] at hbf2
          rw [hbk] at hbf2
          simp at hbf2
          exact ho2 hbf2
        · rw [hstop] at hor2
          simp at hor2
          rw [hsd] at hor2
          simp at hor2
      · exfalso
        rw [hresk] at hres2
        simp at hres2
        subst hres2
        rw [hbk] at hb2
        simp at hb2
        subst hb2
        rcases hki with ⟨f2, hrf2, hbf2⟩ | hsd
        · rw [hresk] at hrf2
          simp at hrf2
          rw [← hrf2] at hbf2
          rw [hbk] at hbf2
          simp at hbf2
          exact ho2 hbf2
        · rw [hstop] at hor2
          simp at hor2
          rw [hsd] at hor2
          simp at hor2
    · have hclt : s.current_test_index < k := lt_of_le_of_ne hck hc
      obtain ⟨f, o, hres, hbeh, hne, hsd⟩ := hpass s.current_test_index le_rfl hclt
      have ho' : (o == "fail") = false := by simp [hne]
      have hor : (s.stop_test_series || stopDuring s.current_test_index) = false := by
        rw [hstop, hsd]
        rfl
      rcases runNextTest_succ_eq series behavior stopDuring fuel s with
        ⟨hnone, _⟩ | ⟨hcond, _⟩ | ⟨file, hres2, hb2, _⟩ | ⟨file, hres2, hb2, _⟩ |
        ⟨file, o2, hres2, hb2, ho2, hor2, _⟩ | ⟨file, o2, hres2, hb2, ho2, hor2, hlen2, heq⟩ |
        ⟨file, o2, hres2, hb2, ho2, hor2, hlen2, heq⟩
      · obtain ⟨item, t, hg, _, _⟩ := resolvedFileAt_some_elim hres
        rw [hnone] at hg
        simp at hg
      · rcases hcond with hcn | ⟨file, hcf, hcimp⟩
        · rw [hres] at hcn
          simp at hcn
        · rw [hres] at hcf
          simp at hcf
          rw [← hcf] at hcimp
          rw [hbeh] at hcimp
          simp at hcimp
      · rw [hres] at hres2
        simp at hres2
        rw [← hres2] at hb2
        rw [hbeh] at hb2
        simp at hb2
      · rw [hres] at hres2
        simp at hres2
        rw [← hres2] at hb2
        rw [hbeh] at hb2
        simp at hb2
        exact absurd hb2 hne
      · rw [hor] at hor2
        simp at hor2
      · omega
      · rw [hres] at hres2
        simp at hres2
        subst hres2
        rw [hbeh] at hb2
        simp at hb2
        subst hb2
        have hcur : (updateTestResult series.length o s.current_test_index
            { s with stop_test_series :=
                s.stop_test_series || stopDuring s.current_test_index }).state =
            { s with
              current_test_index := s.current_test_index + 1,
              statuses := s.statuses.set s.current_test_index o } := by
          simp [updateTestResult, ho', hsd, hlen2, hstop]
        rw [hcur] at heq
        obtain ⟨s', tr, heqr, hrun, hran⟩ := ih
          { s with
            current_test_index := s.current_test_index + 1,
            statuses := s.statuses.set s.current_test_index o }
          (by show series.length - (s.current_test_index + 1) < fuel; omega)
          hstop
          (by show s.current_test_index + 1 ≤ k; omega)
          (by
            intro m hm1 hm2
            have hm1' : s.current_test_index + 1 ≤ m := hm1
            exact hpass m (by omega) hm2)
        rw [heqr] at heq
        refine ⟨s', Event.ran s.current_test_index f :: tr, by simpa using heq, hrun, ?_⟩
        have hsplit : k + 1 - s.current_test_index =
            (k + 1 - (s.current_test_index + 1)) + 1 := by omega
        rw [hsplit]
        have hcons : ranIndices (Event.ran s.current_test_index f :: tr) =
            s.current_test_index :: ranIndices tr := by
          simp [ranIndices]
        have hran' : ranIndices tr =
            List.range' (s.current_test_index + 1)
              (k + 1 - (s.current_test_index + 1)) := hran
        rw [hcons, hran']
        rfl

/-- Claim C1: for every series of length `N`, calling `run_all_tests()`
while not running (idle, `starting_index = 0`) executes the tests at
indices `0..N-1` in ascending order and returns to idle — unless a test
returns `"fail"` or a stop was requested during some test, in which case
(for the first such index `k`) exactly the indices `0..k` execute, no test
after `k` executes, and the runner still returns to idle. -/
theorem run_all_executes_in_order (series : List TestEntry)
    (behavior : String → TestBehavior) (stopDuring : Nat → Bool) (s : RunnerState)
    (hidle : s.is_running_tests = false) :
    ((∀ k, k < series.length → passesAt series behavior stopDuring k) →
      ∃ s' tr, runAllTests series behavior stopDuring 0 s = (RunResult.done s', tr) ∧
        s'.is_running_tests = false ∧ ranIndices tr = List.range series.length) ∧
    (∀ k, k < series.length → completesAt series behavior k →
      interruptsAt series behavior stopDuring k →
      (∀ m, m < k → passesAt series behavior stopDuring m) →
      ∃ s' tr, runAllTests series behavior stopDuring 0 s = (RunResult.done s', tr) ∧
        s'.is_running_tests = false ∧ ranIndices tr = List.range (k + 1)) := by
  have hall : runAllTests series behavior stopDuring 0 s =
      runNextTest series behavior stopDuring (series.length + 1)
        { s with
          stop_test_series := false, is_running_tests := true,
          current_test_index := 0, start_time := true } := by
    simp [runAllTests, hidle]
  constructor
  · intro hpass
    obtain ⟨s', tr, heq, hrun, hran⟩ := runNextTest_all_pass series behavior stopDuring
      (series.length + 1)
      { s with
        stop_test_series := false, is_running_tests := true,
        current_test_index := 0, start_time := true }
      (by show series.length - 0 < series.length + 1; omega)
      rfl
      (by
        intro k _ hk2
        exact hpass k hk2)
    refine ⟨s', tr, by rw [hall, heq], hrun, ?_⟩
    rw [List.range_eq_range']
    exact hran
  · intro k hk hkc hki hpass
    obtain ⟨s', tr, heq, hrun, hran⟩ := runNextTest_first_interrupt series behavior
      stopDuring k hkc hki (series.length + 1)
      { s with
        stop_test_series := false, is_running_tests := true,
        current_test_index := 0, start_time := true }
      (by show series.length - 0 < series.length + 1; omega)
      rfl
      (Nat.zero_le k)
      (by
        intro m _ hm2
        exact hpass m hm2)
    refine ⟨s', tr, by rw [hall, heq], hrun, ?_⟩
    rw [List.range_eq_range']
    exact hran

theorem run_all_executes_in_order_witness :
    ∃ s' tr, runAllTests demoSeries demoBehaviorPass demoNoStop 0 demoIdle =
        (RunResult.done s', tr) ∧
      s'.is_running_tests = false ∧ ranIndices tr = List.range demoSeries.length :=
  (run_all_executes_in_order demoSeries demoBehaviorPass demoNoStop demoIdle rfl).1
    (by
      intro k hk
      have hk2 : k < 2 := by simpa [demoSeries] using hk
      interval_cases k
      · exact ⟨"a", "pass", by decide, rfl, by decide, rfl⟩
      · exact ⟨"b", "pass", by decide, rfl, by decide, rfl⟩)

/-- Claim C2: in a `run_all_tests()` run, when the test at index `i`
completes with outcome `"fail"`, the run halts unconditionally: the runner
ends idle (`is_running_tests` false), the blocking modal failure notice for
index `i` is raised, and no test at any index greater than `i` is ever
dispatched in that run. -/
theorem fail_halts_series (series : List TestEntry) (behavior : String → TestBehavior)
    (stopDuring : Nat → Bool) (s : RunnerState) (i : Nat) (f : String)
    (hran : Event.ran i f ∈ (runAllTests series behavior stopDuring 0 s).2)
    (hfail : behavior f = TestBehavior.returns "fail") :
    (∃ s', (runAllTests series behavior stopDuring 0 s).1 = RunResult.done s' ∧
      s'.is_running_tests = false) ∧
    Event.failNotice i ∈ (runAllTests series behavior stopDuring 0 s).2 ∧
    (∀ j f2, Event.ran j f2 ∈ (runAllTests series behavior stopDuring 0 s).2 →
      j ≤ i) := by
  by_cases hrun : s.is_running_tests = true
  · have hnoop : runAllTests series behavior stopDuring 0 s = (RunResult.done s, []) := by
      simp [runAllTests, hrun]
    rw [hnoop] at hran
    simp at hran
  · have hidle : s.is_running_tests = false := by simpa using hrun
    have hall : runAllTests series behavior stopDuring 0 s =
        runNextTest series behavior stopDuring (series.length + 1)
          { s with
            stop_test_series := false, is_running_tests := true,
            current_test_index := 0, start_time := true } := by
      simp [runAllTests, hidle]
    rw [hall] at hran ⊢
    exact runNextTest_fail_halts_aux series behavior stopDuring
      (series.length + 1) _ i f hran hfail

theorem fail_halts_series_witness :
    (∃ s', (runAllTests series3 beh3 demoNoStop 0 idle3).1 = RunResult.done s' ∧
      s'.is_running_tests = false) ∧
    Event.failNotice 1 ∈ (runAllTests series3 beh3 demoNoStop 0 idle3).2 ∧
    (∀ j f2, Event.ran j f2 ∈ (runAllTests series3 beh3 demoNoStop 0 idle3).2 →
      j ≤ 1) :=
  fail_halts_series series3 beh3 demoNoStop idle3 1 "b" (by decide) (by decide)

end SimpleTest
